import Mathlib

/-!
Verification development for the WK2132 dual UART bridge driver
(components wk2132_i2c and wk2132 of the esphome.DrCoolZic repository).

The file gives a shallow embedding of the parts of the driver that the
claims talk about:
- the RingBuffer template class of wk2132_i2c.h (lines 53 to 113);
- the WK2132Register proxy read modify write operators of
  wk2132_i2c.cpp (lines 228 to 271);
- the page selection idiom of wk2132_i2c.cpp (lines 283 to 288 and
  364 to 372);
- the baud rate computation of WK2132Channel::set_baudrate_
  (wk2132_i2c.cpp lines 355 to 376, wk2132.cpp lines 183 to 204);
- WK2132Component::setup of wk2132.cpp (lines 91 to 100);
- the data path WK2132Channel::read_array, WK2132Channel::available and
  WK2132Channel::xfer_fifo_to_buffer_ (wk2132_i2c.cpp lines 415 to 492).

Machine integers of the source are modelled as Nat with explicit
reductions modulo 2 to the width where overflow matters.  Bus
transactions are modelled by their observable outcome: a success flag
given as input and, where a claim needs it, an explicit record of the
register writes or raw FIFO reads that the code issues.
-/

set_option maxHeartbeats 1000000

/-- Size of the internal WK2132 FIFO (wk2132_i2c.h line 30). -/
def FIFO_SIZE : Nat := 256

/-- Global page register address (wk2132_i2c.h line 234). -/
def REG_WK2132_SPAGE : Nat := 0x03

/-- Baud rate high byte register, page 1 (wk2132_i2c.h line 417). -/
def REG_WK2132_BRH : Nat := 0x04

/-- Baud rate low byte register, page 1 (wk2132_i2c.h line 427). -/
def REG_WK2132_BRL : Nat := 0x05

/-- Baud rate decimal part register, page 1 (wk2132_i2c.h line 437). -/
def REG_WK2132_BRD : Nat := 0x06

/-- State of the RingBuffer template class of wk2132_i2c.h lines 53 to
113.  The fields mirror the members rb_ (a std::array of SIZE slots),
tail_ (position of the next element to read), head_ (position of the
next element to write) and count_ (number of elements in the buffer).
The size parameter S stands for the template parameter SIZE; in the
driver the buffer is instantiated with SIZE = RING_BUFFER_SIZE =
XFER_MAX_SIZE (wk2132_i2c.h line 34 and line 657).  Bytes are modelled
as Nat. -/
structure RingBuffer (S : Nat) where
  rb : Array Nat
  tail : Nat
  head : Nat
  count : Nat
deriving DecidableEq, Repr

/-- Embeds RingBuffer::is_full (wk2132_i2c.h line 95): count_ == SIZE. -/
def RingBuffer.is_full {S : Nat} (b : RingBuffer S) : Bool :=
  b.count == S

/-- Embeds RingBuffer::is_empty (wk2132_i2c.h line 91): count_ == 0. -/
def RingBuffer.is_empty {S : Nat} (b : RingBuffer S) : Bool :=
  b.count == 0

/-- Embeds RingBuffer::free (wk2132_i2c.h line 103): SIZE - count_. -/
def RingBuffer.free {S : Nat} (b : RingBuffer S) : Nat :=
  S - b.count

/-- Embeds RingBuffer::push (wk2132_i2c.h lines 58 to 65): if the
buffer is full return false and leave the state alone, otherwise store
the item at head_, advance head_ modulo SIZE, increment count_ and
return true. -/
def RingBuffer.push {S : Nat} (b : RingBuffer S) (item : Nat) :
    Bool × RingBuffer S :=
  if b.is_full then (false, b)
  else (true, { b with rb := b.rb.setD b.head item,
                       head := (b.head + 1) % S,
                       count := b.count + 1 })

/-- Embeds RingBuffer::pop (wk2132_i2c.h lines 70 to 77): if the buffer
is empty return false (modelled as none) and leave the state alone,
otherwise return the item at tail_, advance tail_ modulo SIZE and
decrement count_. -/
def RingBuffer.pop {S : Nat} (b : RingBuffer S) :
    Option Nat × RingBuffer S :=
  if b.is_empty then (none, b)
  else (some (b.rb.getD b.tail 0),
        { b with tail := (b.tail + 1) % S, count := b.count - 1 })

/-- Embeds RingBuffer::peek (wk2132_i2c.h lines 82 to 87): like pop but
without removing the item; the buffer state is never modified. -/
def RingBuffer.peek {S : Nat} (b : RingBuffer S) : Option Nat :=
  if b.is_empty then none else some (b.rb.getD b.tail 0)

/-- Embeds RingBuffer::clear (wk2132_i2c.h line 106): head_ = tail_ =
count_ = 0 (the storage array is left as is). -/
def RingBuffer.clear {S : Nat} (b : RingBuffer S) : RingBuffer S :=
  { b with tail := 0, head := 0, count := 0 }

/-- One client visible ring buffer operation, used to state invariants
over arbitrary operation sequences. -/
inductive RBOp where
  | push : Nat → RBOp
  | pop : RBOp
  | peek : RBOp
  | clear : RBOp
deriving DecidableEq, Repr

/-- State reached after one ring buffer operation. -/
def applyOp {S : Nat} (b : RingBuffer S) : RBOp → RingBuffer S
  | .push x => (b.push x).2
  | .pop => (b.pop).2
  | .peek => b
  | .clear => b.clear

/-- State reached after a sequence of ring buffer operations. -/
def applyOps {S : Nat} (b : RingBuffer S) : List RBOp → RingBuffer S
  | [] => b
  | op :: ops => applyOps (applyOp b op) ops

/-! Basic lemmas about the ring buffer operations. -/

theorem RingBuffer.push_of_full {S : Nat} (b : RingBuffer S) (x : Nat)
    (h : b.count = S) : b.push x = (false, b) := by
  simp [RingBuffer.push, RingBuffer.is_full, h]

theorem RingBuffer.push_of_not_full {S : Nat} (b : RingBuffer S) (x : Nat)
    (h : ¬ b.count = S) :
    b.push x = (true, { b with rb := b.rb.setD b.head x,
                               head := (b.head + 1) % S,
                               count := b.count + 1 }) := by
  simp [RingBuffer.push, RingBuffer.is_full, h]

theorem RingBuffer.pop_of_empty {S : Nat} (b : RingBuffer S)
    (h : b.count = 0) : b.pop = (none, b) := by
  simp [RingBuffer.pop, RingBuffer.is_empty, h]

theorem RingBuffer.pop_of_nonempty {S : Nat} (b : RingBuffer S)
    (h : ¬ b.count = 0) :
    b.pop = (some (b.rb.getD b.tail 0),
             { b with tail := (b.tail + 1) % S, count := b.count - 1 }) := by
  simp [RingBuffer.pop, RingBuffer.is_empty, h]

theorem RingBuffer.peek_of_empty {S : Nat} (b : RingBuffer S)
    (h : b.count = 0) : b.peek = none := by
  simp [RingBuffer.peek, RingBuffer.is_empty, h]

theorem applyOp_count_le {S : Nat} (b : RingBuffer S) (op : RBOp)
    (h : b.count ≤ S) : (applyOp b op).count ≤ S := by
  cases op with
  | push x =>
    by_cases hf : b.count = S
    · simp [applyOp, RingBuffer.push_of_full b x hf, h]
    · simp [applyOp, RingBuffer.push_of_not_full b x hf]
      omega
  | pop =>
    by_cases he : b.count = 0
    · simp [applyOp, RingBuffer.pop_of_empty b he, h]
    · simp [applyOp, RingBuffer.pop_of_nonempty b he]
      omega
  | peek => simpa [applyOp] using h
  | clear => simp [applyOp, RingBuffer.clear]

theorem applyOps_count_le {S : Nat} (ops : List RBOp) (b : RingBuffer S)
    (h : b.count ≤ S) : (applyOps b ops).count ≤ S := by
  induction ops generalizing b with
  | nil => simpa [applyOps] using h
  | cons op ops ih =>
    simpa [applyOps] using ih (applyOp b op) (applyOp_count_le b op h)

/-- C7: push on a full buffer (count == SIZE) returns false and leaves
the whole state (storage, head, tail, count) unchanged; pop and peek on
an empty buffer (count == 0) return no value and leave the state
unchanged; and under any sequence of push, pop, peek and clear
operations the count stays between 0 and SIZE (count is a Nat here,
mirroring the unsigned size_t count_ of the source whose guarded
decrement never underflows). -/
theorem claim_C7 (S : Nat) (b : RingBuffer S) (x : Nat) (ops : List RBOp)
    (hwf : b.count ≤ S) :
    (b.count = S → b.push x = (false, b)) ∧
    (b.count = 0 → b.pop = (none, b) ∧ b.peek = none) ∧
    (0 ≤ (applyOps b ops).count ∧ (applyOps b ops).count ≤ S) := by
  refine ⟨fun h => RingBuffer.push_of_full b x h,
          fun h => ⟨RingBuffer.pop_of_empty b h, RingBuffer.peek_of_empty b h⟩,
          Nat.zero_le _, applyOps_count_le ops b hwf⟩

/-- Concrete full buffer of capacity 3 for the C7 witness. -/
def rbFull3 : RingBuffer 3 := ⟨Array.mkArray 3 7, 0, 0, 3⟩

/-- Concrete empty buffer of capacity 3 for the C7 witness. -/
def rbEmpty3 : RingBuffer 3 := ⟨Array.mkArray 3 0, 0, 0, 0⟩

/-- Witness for C7 at concrete inputs: a full buffer of capacity 3
rejects a push unchanged, an empty one rejects pop and peek unchanged,
and a concrete operation sequence keeps the count within bounds. -/
theorem claim_C7_witness :
    rbFull3.count ≤ 3 ∧ rbEmpty3.count ≤ 3 ∧
    rbFull3.push 9 = (false, rbFull3) ∧
    (rbEmpty3.pop = (none, rbEmpty3) ∧ rbEmpty3.peek = none) ∧
    (0 ≤ (applyOps rbFull3 [RBOp.pop, RBOp.push 1, RBOp.clear]).count ∧
     (applyOps rbFull3 [RBOp.pop, RBOp.push 1, RBOp.clear]).count ≤ 3) :=
  ⟨by decide, by decide,
   (claim_C7 3 rbFull3 9 [RBOp.pop, RBOp.push 1, RBOp.clear] (by decide)).1
     (by decide),
   (claim_C7 3 rbEmpty3 9 [] (by decide)).2.1 (by decide),
   (claim_C7 3 rbFull3 9 [RBOp.pop, RBOp.push 1, RBOp.clear] (by decide)).2.2⟩

/-- Pushes the elements of a list one after the other, in order, always
attempting every push and recording each push return value.  This is the
transfer loop of WK2132Channel::xfer_fifo_to_buffer_ (wk2132_i2c.cpp
lines 486 to 487), whose body ignores the push return value. -/
def pushAll {S : Nat} : RingBuffer S → List Nat → RingBuffer S × List Bool
  | b, [] => (b, [])
  | b, x :: xs =>
    ((pushAll (b.push x).2 xs).1, (b.push x).1 :: (pushAll (b.push x).2 xs).2)

/-- Pops n times, collecting the successfully popped values in order.
This is the retrieval loop of WK2132Channel::read_array (wk2132_i2c.cpp
lines 431 to 433), whose body ignores the pop return value, so a failed
pop simply leaves the corresponding output slot unwritten. -/
def popN {S : Nat} : RingBuffer S → Nat → List Nat × RingBuffer S
  | b, 0 => ([], b)
  | b, n + 1 =>
    match b.pop with
    | (none, b1) => popN b1 n
    | (some x, b1) => (x :: (popN b1 n).1, (popN b1 n).2)

theorem pushAll_spec {S : Nat} (l : List Nat) (b : RingBuffer S)
    (h : b.count + l.length ≤ S) :
    (pushAll b l).1.count = b.count + l.length ∧
    ∀ r ∈ (pushAll b l).2, r = true := by
  induction l generalizing b with
  | nil => simp [pushAll]
  | cons x xs ih =>
    have hne : ¬ b.count = S := by
      simp only [List.length_cons] at h
      omega
    rw [pushAll, RingBuffer.push_of_not_full b x hne]
    have h1 : ({ b with rb := b.rb.setD b.head x, head := (b.head + 1) % S,
                        count := b.count + 1 } : RingBuffer S).count
                + xs.length ≤ S := by
      show b.count + 1 + xs.length ≤ S
      simp only [List.length_cons] at h
      omega
    obtain ⟨hc, hr⟩ := ih _ h1
    constructor
    · simp only [hc]
      show b.count + 1 + xs.length = b.count + (x :: xs).length
      simp only [List.length_cons]
      omega
    · intro r hrm
      simp only [List.mem_cons] at hrm
      rcases hrm with hrm | hrm
      · exact hrm
      · exact hr r hrm

theorem pushAll_length {S : Nat} (l : List Nat) (b : RingBuffer S) :
    (pushAll b l).2.length = l.length := by
  induction l generalizing b with
  | nil => simp [pushAll]
  | cons x xs ih => simp [pushAll, ih]

theorem popN_spec {S : Nat} (n : Nat) (b : RingBuffer S)
    (h : n ≤ b.count) :
    (popN b n).1.length = n ∧ (popN b n).2.count = b.count - n := by
  induction n generalizing b with
  | zero => simp [popN]
  | succ m ih =>
    have hne : ¬ b.count = 0 := by omega
    rw [popN, RingBuffer.pop_of_nonempty b hne]
    have h1 : m ≤ ({ b with tail := (b.tail + 1) % S,
                            count := b.count - 1 } : RingBuffer S).count := by
      show m ≤ b.count - 1
      omega
    obtain ⟨hl, hc⟩ := ih _ h1
    refine ⟨by simp [hl], ?_⟩
    simp only [hc]
    show b.count - 1 - m = b.count - (m + 1)
    omega

/-- The two clamping tests at the start of
WK2132Channel::xfer_fifo_to_buffer_ (wk2132_i2c.cpp lines 470 to 475):
starting from the hardware fifo count, first clamp to XFER_MAX_SIZE
(here the parameter S, since RING_BUFFER_SIZE = XFER_MAX_SIZE), then
clamp to the free space of the ring buffer. -/
def clampTransfer (S fifo fr : Nat) : Nat :=
  let t1 := if fifo > S then S else fifo
  if t1 > fr then fr else t1

theorem clampTransfer_eq_min (S fifo fr : Nat) :
    clampTransfer S fifo fr = Nat.min fifo (Nat.min fr S) := by
  simp only [clampTransfer, Nat.min_def]
  split_ifs <;> omega

/-- Observable outcome of one call to
WK2132Channel::xfer_fifo_to_buffer_: the returned byte count, the ring
buffer afterwards, whether a raw FIFO bus read was issued and the list
of return values of the pushes performed by the transfer loop. -/
structure XferResult (S : Nat) where
  moved : Nat
  buffer : RingBuffer S
  fifoReadIssued : Bool
  pushResults : List Bool
deriving DecidableEq, Repr

/-- Embeds WK2132Channel::xfer_fifo_to_buffer_ (wk2132_i2c.cpp lines 469
to 492).  Inputs: fifo_count is the value returned by rx_in_fifo_(); buf
is receive_buffer_; data gives the contents of the local byte array
after the raw FIFO bus read (when that read fails the source only logs
an error, so the array holds unspecified bytes and the rest of the
function is identical — readOk therefore influences nothing, which is
exactly the behaviour of the source); S is XFER_MAX_SIZE, which by
wk2132_i2c.h line 34 also equals the ring buffer capacity.  When the
clamped amount is nonzero the raw FIFO read is issued and every byte of
the local array is pushed; otherwise the function returns 0 without any
bus access. -/
def xfer_fifo_to_buffer (S : Nat) (fifo_count : Nat) (buf : RingBuffer S)
    (data : Nat → Nat) (readOk : Bool) : XferResult S :=
  let to_transfer := clampTransfer S fifo_count buf.free
  if to_transfer ≠ 0 then
    let pr := pushAll buf ((List.range to_transfer).map data)
    { moved := to_transfer, buffer := pr.1, fifoReadIssued := true,
      pushResults := pr.2 }
  else
    { moved := to_transfer, buffer := buf, fifoReadIssued := false,
      pushResults := [] }

/-- Observable outcome of one call to WK2132Channel::read_array: the
bytes copied to the caller, the returned status, the ring buffer
afterwards and whether any raw FIFO bus read was issued (the body of
read_array, wk2132_i2c.cpp lines 422 to 437, contains no bus
transaction at all, so this flag is false). -/
structure ReadResult (S : Nat) where
  bytes : List Nat
  status : Bool
  buffer : RingBuffer S
  fifoReadIssued : Bool
deriving DecidableEq, Repr

/-- Embeds WK2132Channel::read_array (wk2132_i2c.cpp lines 422 to 437):
if the requested length exceeds receive_buffer_.count() the length is
clamped to the count and the status becomes false; then the clamped
number of bytes is popped from the ring buffer. -/
def read_array (S : Nat) (buf : RingBuffer S) (length : Nat) :
    ReadResult S :=
  let a := buf.count
  let len := if length > a then a else length
  let status := if length > a then false else true
  let r := popN buf len
  { bytes := r.1, status := status, buffer := r.2, fifoReadIssued := false }

/-- Embeds WK2132Channel::available (wk2132_i2c.cpp lines 415 to 420):
take receive_buffer_.count(); if it is zero perform one drain and
return the number of bytes that drain moved, together with the buffer
afterwards. -/
def available (S : Nat) (fifo_count : Nat) (buf : RingBuffer S)
    (data : Nat → Nat) (readOk : Bool) : Nat × RingBuffer S :=
  let a := buf.count
  if a = 0 then
    let r := xfer_fifo_to_buffer S fifo_count buf data readOk
    (r.moved, r.buffer)
  else (a, buf)

theorem xfer_moved (S fifo : Nat) (buf : RingBuffer S) (data : Nat → Nat)
    (readOk : Bool) :
    (xfer_fifo_to_buffer S fifo buf data readOk).moved
      = clampTransfer S fifo buf.free := by
  by_cases hz : clampTransfer S fifo buf.free = 0 <;>
    simp [xfer_fifo_to_buffer, hz]

theorem clampTransfer_le_fr (S fifo fr : Nat) :
    clampTransfer S fifo fr ≤ fr := by
  simp only [clampTransfer]
  split_ifs <;> omega

theorem clampTransfer_le_S (S fifo fr : Nat) :
    clampTransfer S fifo fr ≤ S := by
  simp only [clampTransfer]
  split_ifs <;> omega

theorem xfer_count (S fifo : Nat) (buf : RingBuffer S) (data : Nat → Nat)
    (readOk : Bool) (h : buf.count ≤ S) :
    (xfer_fifo_to_buffer S fifo buf data readOk).buffer.count
      = buf.count + clampTransfer S fifo buf.free := by
  by_cases hz : clampTransfer S fifo buf.free = 0
  · simp [xfer_fifo_to_buffer, hz]
  · have hle : clampTransfer S fifo buf.free ≤ buf.free :=
      clampTransfer_le_fr S fifo buf.free
    have hfr : buf.free = S - buf.count := rfl
    have hlen : buf.count
        + ((List.range (clampTransfer S fifo buf.free)).map data).length
        ≤ S := by
      simp only [List.length_map, List.length_range]
      omega
    have hps := (pushAll_spec
      ((List.range (clampTransfer S fifo buf.free)).map data) buf hlen).1
    simp [xfer_fifo_to_buffer, hz, hps, List.length_map, List.length_range]

/-- C1: the number of bytes moved by xfer_fifo_to_buffer_ equals
min(fifo count reported by rx_in_fifo_(), receive_buffer_.free(),
XFER_MAX_SIZE); when that minimum is 0 the function returns 0 without
issuing a raw FIFO read, and otherwise receive_buffer_.count()
increases by exactly that minimum and the function returns it. -/
theorem claim_C1 (S fifo : Nat) (buf : RingBuffer S) (data : Nat → Nat)
    (readOk : Bool) (h : buf.count ≤ S) :
    (xfer_fifo_to_buffer S fifo buf data readOk).moved
        = Nat.min fifo (Nat.min buf.free S) ∧
    (Nat.min fifo (Nat.min buf.free S) = 0 →
      (xfer_fifo_to_buffer S fifo buf data readOk).fifoReadIssued = false ∧
      (xfer_fifo_to_buffer S fifo buf data readOk).moved = 0) ∧
    (Nat.min fifo (Nat.min buf.free S) ≠ 0 →
      (xfer_fifo_to_buffer S fifo buf data readOk).buffer.count
        = buf.count + Nat.min fifo (Nat.min buf.free S)) := by
  have hm := clampTransfer_eq_min S fifo buf.free
  refine ⟨by rw [xfer_moved, hm], fun h0 => ?_, fun h0 => ?_⟩
  · have hz : clampTransfer S fifo buf.free = 0 := by rw [hm, h0]
    constructor
    · simp [xfer_fifo_to_buffer, hz]
    · rw [xfer_moved, hz]
  · rw [xfer_count S fifo buf data readOk h, hm]

/-- Concrete ring buffer of capacity 255 holding 235 bytes (20 free)
for the C1 witness. -/
def c1buf : RingBuffer 255 := ⟨Array.mkArray 255 0, 0, 235, 235⟩

/-- Witness for C1 at the inputs of the spec example: fifo count 50,
20 bytes free, transport maximum 255; the minimum is 20, so 20 bytes
are moved, the count grows by 20 and 20 is returned. -/
theorem claim_C1_witness :
    c1buf.count ≤ 255 ∧
    ((xfer_fifo_to_buffer 255 50 c1buf (fun _ => 0) true).moved
        = Nat.min 50 (Nat.min c1buf.free 255) ∧
     (Nat.min 50 (Nat.min c1buf.free 255) = 0 →
       (xfer_fifo_to_buffer 255 50 c1buf (fun _ => 0) true).fifoReadIssued
           = false ∧
       (xfer_fifo_to_buffer 255 50 c1buf (fun _ => 0) true).moved = 0) ∧
     (Nat.min 50 (Nat.min c1buf.free 255) ≠ 0 →
       (xfer_fifo_to_buffer 255 50 c1buf (fun _ => 0) true).buffer.count
         = c1buf.count + Nat.min 50 (Nat.min c1buf.free 255))) ∧
    Nat.min 50 (Nat.min c1buf.free 255) = 20 ∧ c1buf.count = 235 :=
  ⟨by decide, claim_C1 255 50 c1buf (fun _ => 0) true (by decide),
   by decide, by decide⟩

/-- C6: when the requested length exceeds receive_buffer_.count(),
read_array copies exactly count() bytes into the caller buffer, returns
false, performs no raw FIFO bus read (the body of read_array contains
no drain), and leaves the ring buffer empty. -/
theorem claim_C6 (S len : Nat) (buf : RingBuffer S) (h : buf.count < len) :
    (read_array S buf len).bytes.length = buf.count ∧
    (read_array S buf len).status = false ∧
    (read_array S buf len).fifoReadIssued = false ∧
    (read_array S buf len).buffer.count = 0 := by
  have hp := popN_spec buf.count buf (Nat.le_refl _)
  have hgt : len > buf.count := h
  refine ⟨?_, ?_, ?_, ?_⟩ <;>
    simp [read_array, hgt, hp.1, hp.2]

/-- Concrete ring buffer of capacity 255 holding 5 bytes for the C6
witness. -/
def c6buf : RingBuffer 255 := ⟨Array.mkArray 255 0, 0, 5, 5⟩

/-- Witness for C6 at the inputs of the spec example: a buffer holding
5 bytes and a read of requested length 10 copies 5 bytes, returns the
failure indicator, issues no FIFO read and leaves the buffer empty. -/
theorem claim_C6_witness :
    c6buf.count < 10 ∧
    ((read_array 255 c6buf 10).bytes.length = c6buf.count ∧
     (read_array 255 c6buf 10).status = false ∧
     (read_array 255 c6buf 10).fifoReadIssued = false ∧
     (read_array 255 c6buf 10).buffer.count = 0) ∧
    c6buf.count = 5 :=
  ⟨by decide, claim_C6 255 10 c6buf (by decide), by decide⟩

/-- C8: inside xfer_fifo_to_buffer_, because the amount to transfer has
been clamped to receive_buffer_.free() before the raw FIFO read, every
push performed by the transfer loop returns true; the buffer full
rejection branch of push is unreachable during a drain (stated for any
buffer satisfying the count invariant). -/
theorem claim_C8 (S fifo : Nat) (buf : RingBuffer S) (data : Nat → Nat)
    (readOk : Bool) (h : buf.count ≤ S) :
    (xfer_fifo_to_buffer S fifo buf data readOk).pushResults.all
      (fun r => r) = true := by
  by_cases hz : clampTransfer S fifo buf.free = 0
  · simp [xfer_fifo_to_buffer, hz]
  · have hle : clampTransfer S fifo buf.free ≤ buf.free :=
      clampTransfer_le_fr S fifo buf.free
    have hfr : buf.free = S - buf.count := rfl
    have hlen : buf.count
        + ((List.range (clampTransfer S fifo buf.free)).map data).length
        ≤ S := by
      simp only [List.length_map, List.length_range]
      omega
    have hps := (pushAll_spec
      ((List.range (clampTransfer S fifo buf.free)).map data) buf hlen).2
    simp only [xfer_fifo_to_buffer]
    simp only [ne_eq, hz, not_false_eq_true, if_true]
    simp only [List.all_eq_true]
    intro r hr
    exact hps r hr

/-- Concrete ring buffer of capacity 8 holding 3 bytes for the C8
witness. -/
def c8buf : RingBuffer 8 := ⟨Array.mkArray 8 0, 0, 3, 3⟩

/-- Witness for C8 at a concrete drain: fifo count 10, capacity 8,
3 bytes already buffered; all five pushes of the transfer loop
succeed. -/
theorem claim_C8_witness :
    c8buf.count ≤ 8 ∧
    (xfer_fifo_to_buffer 8 10 c8buf (fun i => i) true).pushResults.all
      (fun r => r) = true :=
  ⟨by decide, claim_C8 8 10 c8buf (fun i => i) true (by decide)⟩

/-- C9: the outcome of xfer_fifo_to_buffer_ is the same whether the raw
FIFO bus read succeeds or fails: on failure the source only logs an
error and then pushes all to_transfer bytes of its local array (whose
contents the failed read did not fill) into the ring buffer and returns
to_transfer; one push is attempted per byte of the clamped amount in
either case. -/
theorem claim_C9 (S fifo : Nat) (buf : RingBuffer S) (data : Nat → Nat) :
    xfer_fifo_to_buffer S fifo buf data false
        = xfer_fifo_to_buffer S fifo buf data true ∧
    (xfer_fifo_to_buffer S fifo buf data false).moved
        = clampTransfer S fifo buf.free ∧
    (xfer_fifo_to_buffer S fifo buf data false).pushResults.length
        = clampTransfer S fifo buf.free := by
  refine ⟨rfl, xfer_moved S fifo buf data false, ?_⟩
  by_cases hz : clampTransfer S fifo buf.free = 0
  · simp [xfer_fifo_to_buffer, hz]
  · simp [xfer_fifo_to_buffer, hz, pushAll_length]

/-- C10: available() never reports more than XFER_MAX_SIZE bytes (the
ring buffer capacity): if bytes are already buffered it returns their
count, which the invariant bounds by the capacity, and otherwise it
returns the drain amount, which is clamped to XFER_MAX_SIZE, even when
rx_in_fifo_() reports the full 256 byte FIFO via the count aliases to
zero quirk. -/
theorem claim_C10 (S fifo : Nat) (buf : RingBuffer S) (data : Nat → Nat)
    (readOk : Bool) (h : buf.count ≤ S) :
    (available S fifo buf data readOk).1 ≤ S := by
  by_cases hc : buf.count = 0
  · have hm := xfer_moved S fifo buf data readOk
    have hle := clampTransfer_le_S S fifo buf.free
    simp only [available, hc, if_true]
    omega
  · simp only [available, hc, if_false]
    exact h

/-- Concrete empty ring buffer of capacity 255 for the C10 witness. -/
def c10buf : RingBuffer 255 := ⟨Array.mkArray 255 0, 0, 0, 0⟩

/-- Witness for C10 at the quirk input: the hardware reports the full
FIFO_SIZE = 256 bytes, yet a single available() call reports at most
255 = XFER_MAX_SIZE bytes. -/
theorem claim_C10_witness :
    c10buf.count ≤ 255 ∧
    (available 255 FIFO_SIZE c10buf (fun _ => 0) true).1 ≤ 255 :=
  ⟨by decide, claim_C10 255 FIFO_SIZE c10buf (fun _ => 0) true (by decide)⟩

/-- One register write on the bus: register address and byte value.
Used to record the bus transactions that an operation issues. -/
structure RegWrite where
  reg : Nat
  value : Nat
deriving DecidableEq, Repr

/-- Component state seen by the page selection code: the page1_ flag of
WK2132Component (wk2132_i2c.h line 514). -/
structure PageState where
  page1 : Bool
deriving DecidableEq, Repr

/-- Embeds the page selection idiom of the source: set the page1_ flag
and write the global SPAGE register.  This is wk2132_i2c.cpp lines 365
to 366 and 371 to 372 (set_baudrate_) and lines 287 to 288 (setup).
The source never consults the current page1_ value before writing: the
SPAGE bus write is issued unconditionally on every page selection (the
st argument is deliberately ignored, exactly as in the source). -/
def select_page (st : PageState) (page : Bool) :
    PageState × List RegWrite :=
  ({ page1 := page }, [⟨REG_WK2132_SPAGE, if page then 1 else 0⟩])

/-- Two consecutive page selections with the same page value, with the
bus writes of both calls concatenated in order. -/
def select_page_twice (st : PageState) (page : Bool) :
    PageState × List RegWrite :=
  ((select_page (select_page st page).1 page).1,
   (select_page st page).2 ++ (select_page (select_page st page).1 page).2)

/-- Counterexample to C2: the code contains no conditional page write.
Starting from page1_ = false, two consecutive page selections of page 1
issue two SPAGE bus writes, not one; and even when page1_ already
equals the requested page the selection still issues a bus write, so
the second call is not a no-op. -/
theorem claim_C2_counterexample :
    ¬ ((select_page_twice ⟨false⟩ true).2.length = 1) ∧
    (select_page_twice ⟨false⟩ true).2.length = 2 ∧
    (select_page ⟨true⟩ true).2.length = 1 := by
  decide

/-- C2 amended: every page selection updates page1_ to the requested
page and issues exactly one unconditional bus write of the SPAGE
register, regardless of the current page1_ value; hence two consecutive
calls with the same page issue exactly two bus writes (the second is
not a no-op). -/
theorem claim_C2 (st : PageState) (p : Bool) :
    (select_page st p).1.page1 = p ∧
    (select_page st p).2
        = [⟨REG_WK2132_SPAGE, if p then 1 else 0⟩] ∧
    (select_page_twice st p).2.length = 2 := by
  refine ⟨rfl, rfl, ?_⟩
  simp [select_page_twice, select_page]

/-- Embeds WK2132Register::get (wk2132_i2c.cpp lines 243 to 257).  The
local variable value is initialised to 0x00; on bus success the read
byte is returned and the parent warning status is cleared, on bus
failure the function logs, sets the warning status and returns the
still zero value.  Result: (returned byte, warning status after the
call). -/
def WK2132Register.get (readOk : Bool) (busValue : Nat) : Nat × Bool :=
  if readOk then (busValue % 256, false) else (0, true)

/-- Outcome of one compound register operation (operator&= or
operator|=, wk2132_i2c.cpp lines 232 to 241): whether a register write
was issued on the bus, the byte written, and the parent warning status
after the whole operation (set finally by WK2132Register::set according
to the write outcome, wk2132_i2c.cpp lines 259 to 271). -/
structure RmwResult where
  writePerformed : Bool
  writtenValue : Nat
  warningAfterRead : Bool
  warningAfterWrite : Bool
deriving DecidableEq, Repr

/-- Embeds WK2132Register::operator&= (wk2132_i2c.cpp lines 232 to
236): value &= get(); set(value).  The set call is unconditional: it is
issued whether or not the read inside get() succeeded. -/
def WK2132Register.opAndEq (readOk : Bool) (busValue : Nat)
    (operand : Nat) (writeOk : Bool) : RmwResult :=
  let g := WK2132Register.get readOk busValue
  { writePerformed := true,
    writtenValue := (operand % 256) &&& g.1,
    warningAfterRead := g.2,
    warningAfterWrite := !writeOk }

/-- Embeds WK2132Register::operator|= (wk2132_i2c.cpp lines 237 to
241): value |= get(); set(value).  The set call is unconditional. -/
def WK2132Register.opOrEq (readOk : Bool) (busValue : Nat)
    (operand : Nat) (writeOk : Bool) : RmwResult :=
  let g := WK2132Register.get readOk busValue
  { writePerformed := true,
    writtenValue := (operand % 256) ||| g.1,
    warningAfterRead := g.2,
    warningAfterWrite := !writeOk }

/-- Counterexample to C3: with a failing register read (and a
succeeding write), operator&= still performs the register write — the
write is not skipped — and after the operation the warning status is
clear again, so the read failure is not propagated to the caller in any
form.  The same holds for operator|=. -/
theorem claim_C3_counterexample :
    (WK2132Register.opAndEq false 0xFF 0x0F true).writePerformed = true ∧
    ¬ ((WK2132Register.opAndEq false 0xFF 0x0F true).writePerformed
         = false) ∧
    (WK2132Register.opAndEq false 0xFF 0x0F true).warningAfterWrite
        = false ∧
    (WK2132Register.opOrEq false 0xFF 0x0F true).writePerformed = true := by
  decide

/-- C3 amended: operator&= and operator|= do read the current register
value, apply the bit operation and write the result back; but when the
underlying register read fails the write is not skipped — it is issued
with the bit operation applied to the default value 0 returned by the
failed get() — and the failure is surfaced only through the transient
parent warning status (set by the failed read, then overwritten by the
outcome of the write), never propagated to the caller. -/
theorem claim_C3 (readOk writeOk : Bool) (busValue operand : Nat) :
    (WK2132Register.opAndEq readOk busValue operand writeOk).writePerformed
        = true ∧
    (WK2132Register.opAndEq readOk busValue operand writeOk).writtenValue
        = (operand % 256) &&& (if readOk then busValue % 256 else 0) ∧
    (WK2132Register.opOrEq readOk busValue operand writeOk).writePerformed
        = true ∧
    (WK2132Register.opOrEq readOk busValue operand writeOk).writtenValue
        = (operand % 256) ||| (if readOk then busValue % 256 else 0) ∧
    (WK2132Register.opAndEq readOk busValue operand writeOk).warningAfterRead
        = !readOk ∧
    (WK2132Register.opAndEq readOk busValue operand writeOk).warningAfterWrite
        = !writeOk := by
  cases readOk <;> cases writeOk <;>
    simp [WK2132Register.opAndEq, WK2132Register.opOrEq, WK2132Register.get]

/-- Observable outcome of WK2132Component::setup: whether the component
was marked failed, the warning status left by the probe read, and the
channel indices on which setup_channel_ was invoked, in invocation
order. -/
structure SetupResult where
  markedFailed : Bool
  statusWarning : Bool
  channelsSetUp : List Nat
deriving DecidableEq, Repr

/-- Embeds WK2132Component::setup of wk2132.cpp lines 91 to 100.  The
body stores the base address, logs, performs one probe read of the
global enable register GENA through read_wk2132_register_ — whose
return value is discarded and whose only lasting effect is the warning
status set or cleared inside it (wk2132.cpp lines 73 to 86) — and then
invokes setup_channel_ on every child in order.  mark_failed() is never
called anywhere in the component, so markedFailed is constantly false.
The wk2132_i2c.cpp variant of setup (lines 276 to 294) performs no
probe read at all and likewise sets up every child unconditionally. -/
def WK2132Component.setup (probeOk : Bool) (children : List Nat) :
    SetupResult :=
  { markedFailed := false,
    statusWarning := !probeOk,
    channelsSetUp := children }

/-- Counterexample to C4: with the probe read failing on a device that
owns channels 0 and 1, setup still invokes setup_channel_ on both
channels in index order and the device is not marked failed. -/
theorem claim_C4_counterexample :
    (WK2132Component.setup false [0, 1]).markedFailed = false ∧
    (WK2132Component.setup false [0, 1]).channelsSetUp = [0, 1] ∧
    ¬ ((WK2132Component.setup false [0, 1]).channelsSetUp = []) := by
  decide

/-- C4 amended: the outcome of the initial probe read of the global
enable register is ignored: whether it succeeds or fails, the device is
never marked failed and setup_channel_ is invoked on every owned
channel in channel index order; the probe failure only leaves the
component warning status set. -/
theorem claim_C4 (probeOk : Bool) (children : List Nat) :
    (WK2132Component.setup probeOk children).markedFailed = false ∧
    (WK2132Component.setup probeOk children).channelsSetUp = children ∧
    (WK2132Component.setup probeOk children).statusWarning = !probeOk := by
  exact ⟨rfl, rfl, rfl⟩

/-- Modulus of the 32 bit unsigned arithmetic used by set_baudrate_. -/
def U32 : Nat := 4294967296

/-- Modulus of the 16 bit unsigned arithmetic used by set_baudrate_. -/
def U16 : Nat := 65536

/-- Embeds the val_int computation of WK2132Channel::set_baudrate_
(wk2132_i2c.cpp line 356, wk2132.cpp line 184): crystal_ /
(baud_rate_ * 16) - 1 evaluated in uint32 arithmetic (the subtraction
wraps when the quotient is 0) and stored into a uint16. -/
def baud_val_int (crystal baud : Nat) : Nat :=
  (((crystal % U32) / ((baud * 16) % U32) + (U32 - 1)) % U32) % U16

/-- Embeds the val_dec computation of WK2132Channel::set_baudrate_
(wk2132_i2c.cpp line 357, wk2132.cpp line 185): (crystal_ %
(baud_rate_ * 16)) / (baud_rate_ * 16) evaluated in uint32 integer
arithmetic and stored into a uint16. -/
def baud_val_dec (crystal baud : Nat) : Nat :=
  (((crystal % U32) % ((baud * 16) % U32)) / ((baud * 16) % U32)) % U16

/-- Embeds the reduction loop of set_baudrate_ (wk2132_i2c.cpp lines
360 to 361): while (val_dec > 0x0A) val_dec /= 0x0A. -/
def reduce_dec (v : Nat) : Nat :=
  if h : v > 0x0A then reduce_dec (v / 0x0A) else v
termination_by v
decreasing_by exact Nat.div_lt_self (by omega) (by omega)

/-- Embeds the register write sequence of set_baudrate_ (wk2132_i2c.cpp
lines 364 to 372): select page 1, write the divisor high byte to BRH,
the low byte to BRL, the reduced decimal part to BRD, then select page
0 again. -/
def set_baudrate_writes (crystal baud : Nat) : List RegWrite :=
  let val_int := baud_val_int crystal baud
  let baud_high := (val_int / 256) % 256
  let baud_low := val_int % 256
  let baud_dec := reduce_dec (baud_val_dec crystal baud)
  [⟨REG_WK2132_SPAGE, 1⟩, ⟨REG_WK2132_BRH, baud_high⟩,
   ⟨REG_WK2132_BRL, baud_low⟩, ⟨REG_WK2132_BRD, baud_dec⟩,
   ⟨REG_WK2132_SPAGE, 0⟩]

/-- C5: for every crystal frequency and every baud rate whose uint32
product baud_rate * 16 is nonzero, the fractional value val_dec =
(crystal % (baud * 16)) / (baud * 16) is 0 under integer division, the
divide by ten reduction loop never executes (its guard val_dec > 0x0A
is false on entry and the loop leaves val_dec unchanged), and the byte
written to the page 1 baud fractional register BRD is 0. -/
theorem claim_C5 (crystal baud : Nat) (h : (baud * 16) % U32 ≠ 0) :
    baud_val_dec crystal baud = 0 ∧
    ¬ (baud_val_dec crystal baud > 0x0A) ∧
    reduce_dec (baud_val_dec crystal baud) = baud_val_dec crystal baud ∧
    (set_baudrate_writes crystal baud)[3]? = some ⟨REG_WK2132_BRD, 0⟩ := by
  have h0 : baud_val_dec crystal baud = 0 := by
    have hlt : (crystal % U32) % ((baud * 16) % U32) < (baud * 16) % U32 :=
      Nat.mod_lt _ (Nat.pos_of_ne_zero h)
    simp [baud_val_dec, Nat.div_eq_of_lt hlt]
  have hfix : reduce_dec 0 = 0 := by
    rw [reduce_dec]
    norm_num
  refine ⟨h0, by omega, by rw [h0, hfix], ?_⟩
  simp [set_baudrate_writes, h0, hfix]

/-- Witness for C5 at the spec example inputs crystal = 14745600 and
baud = 9600: the product 153600 is nonzero, so the fractional byte
written to BRD is 0. -/
theorem claim_C5_witness :
    (9600 * 16) % U32 ≠ 0 ∧
    (baud_val_dec 14745600 9600 = 0 ∧
     ¬ (baud_val_dec 14745600 9600 > 0x0A) ∧
     reduce_dec (baud_val_dec 14745600 9600) = baud_val_dec 14745600 9600 ∧
     (set_baudrate_writes 14745600 9600)[3]? = some ⟨REG_WK2132_BRD, 0⟩) :=
  ⟨by decide, claim_C5 14745600 9600 (by decide)⟩
